import Mathlib

/-!
# Verification of the GOMD compile-and-serve pipeline

Shallow embedding of `main.go` of the GOMD repository: the fastlink
preprocessor (`preprocessGMD`), the browser-engine classifier
(`detectBrowserEngine`), the country resolver (`lookupCountry`), the
view-recording analytics aggregator with its deduplication window, the
request dispatcher, and the startup guards of `main`.

Strings handled byte/rune-wise in Go are modelled as `List Char` (the
preprocessor) or as lists of code points (`List Nat`, the classifier,
where ASCII lowercasing is what distinguishes the tokens). Go maps are
modelled as association lists; `time.Time` instants as `Nat`
nanoseconds; the external geolocation service as an oracle function.
-/

namespace GOMD

/-! ## Preprocessor (`preprocessGMD`, main.go lines 66-77)

The Go code applies `regexp.MustCompile` with pattern
`\(([^)\s]+)\)\[([^\]]+)\]` and `ReplaceAllFunc`, replacing each
leftmost non-overlapping match `(<target>)[<label>]` by
`[<label>](/<target>)`. Because the first character class excludes `)`
and the second excludes `]`, the greedy match at a given position is
deterministic: the target runs to the first `)` or whitespace character,
the label to the first `]`. -/

/-- Go's regexp `\s` class: `[\t\n\f\r ]`. -/
def isSpaceGo (c : Char) : Bool :=
  c = '\t' || c = '\n' || c = '\x0c' || c = '\r' || c = ' '

/-- A character admissible in the fastlink target: `[^)\s]`. -/
def isTargetChar (c : Char) : Bool :=
  !(c = ')') && !(isSpaceGo c)

/-- A character admissible in the fastlink label: `[^\]]`. -/
def isLabelChar (c : Char) : Bool :=
  !(c = ']')

/-- Greedy scan of a character class: longest admissible run and the
remainder (the `+`-quantified character classes of the pattern). -/
def scanRun (p : Char → Bool) : List Char → List Char × List Char
  | [] => ([], [])
  | c :: r =>
    if p c then
      let q := scanRun p r
      (c :: q.1, q.2)
    else ([], c :: r)

/-- Strip one expected delimiter character from the head of the input. -/
def stripChar (c : Char) : List Char → Option (List Char)
  | d :: r => if d = c then some r else none
  | [] => none

/-- Attempt to match the fastlink pattern `\(([^)\s]+)\)\[([^\]]+)\]`
at the start of `s`; on success return the target, the label and the
remaining input after the match: strip `(`, take the longest non-empty
run of target characters, strip `)` and `[`, take the longest non-empty
run of label characters, strip `]`. -/
def matchFastlink (s : List Char) : Option (List Char × List Char × List Char) :=
  (stripChar '(' s).bind fun rest =>
    let q1 := scanRun isTargetChar rest
    if q1.1 = [] then none
    else (stripChar ')' q1.2).bind fun r1 =>
      (stripChar '[' r1).bind fun r2 =>
        let q2 := scanRun isLabelChar r2
        if q2.1 = [] then none
        else (stripChar ']' q2.2).bind fun r3 =>
          some (q1.1, q2.1, r3)

/-- Fuel-indexed scanner; with fuel at least the input length it
computes the `ReplaceAllFunc` result (see `preprocessGMD`). -/
def preprocessFuel : Nat → List Char → List Char
  | _, [] => []
  | 0, s => s
  | f + 1, c :: rest =>
    match matchFastlink (c :: rest) with
    | some (tgt, lbl, r) =>
      '[' :: (lbl ++ ']' :: '(' :: '/' :: (tgt ++ ')' :: preprocessFuel f r))
    | none => c :: preprocessFuel f rest

/-- The preprocessor: scan left to right; at each position, if the
fastlink pattern matches, emit `[<label>](/<target>)` and continue
after the match, otherwise emit the character and advance by one.
This is exactly `ReplaceAllFunc`'s leftmost, non-overlapping
replacement discipline for this pattern. -/
def preprocessGMD (s : List Char) : List Char :=
  preprocessFuel s.length s

/-- String wrapper for the preprocessor. -/
def preprocessGMDStr (s : String) : String :=
  ⟨preprocessGMD s.data⟩

/-- `true` iff the fastlink pattern matches somewhere in `s`. -/
def hasFastlink : List Char → Bool
  | [] => false
  | c :: rest => (matchFastlink (c :: rest)).isSome || hasFastlink rest

/-! ## Browser-engine classifier (`detectBrowserEngine`, main.go lines 392-406)

The Go code lowercases the user-agent string (`strings.ToLower`) and
tests substrings in order: webkit+chrome → Blink, webkit → WebKit,
gecko+firefox → Gecko, trident or msie → Trident, else Other. Strings
are modelled as lists of code points; lowercasing is modelled on the
ASCII range, which is where all the discriminating tokens live. -/

/-- ASCII lowercasing of one code point (the fragment of
`unicode.ToLower` relevant to the classifier tokens). -/
def asciiLower (n : Nat) : Nat :=
  if 65 ≤ n ∧ n ≤ 90 then n + 32 else n

/-- ASCII uppercasing of one code point, used to state
case-insensitivity. -/
def asciiUpper (n : Nat) : Nat :=
  if 97 ≤ n ∧ n ≤ 122 then n - 32 else n

/-- Code points of a string literal. -/
def strRunes (s : String) : List Nat :=
  s.data.map Char.toNat

/-- `needle` occurs at the head of `hay`. -/
def runesPrefixAt : List Nat → List Nat → Bool
  | [], _ => true
  | _ :: _, [] => false
  | a :: as, b :: bs => a = b && runesPrefixAt as bs

/-- `strings.Contains hay needle`: `needle` occurs contiguously in
`hay`. -/
def containsRunes (hay needle : List Nat) : Bool :=
  match hay with
  | [] => needle.isEmpty
  | _ :: t => runesPrefixAt needle hay || containsRunes t needle

def webkitTok : List Nat := strRunes "webkit"
def chromeTok : List Nat := strRunes "chrome"
def geckoTok : List Nat := strRunes "gecko"
def firefoxTok : List Nat := strRunes "firefox"
def tridentTok : List Nat := strRunes "trident"
def msieTok : List Nat := strRunes "msie"

/-- The classifier over a user-agent rune list (main.go lines 392-406):
lowercase, then substring checks in the source's switch order. -/
def detectBrowserEngine (ua : List Nat) : String :=
  let l := ua.map asciiLower
  if containsRunes l webkitTok && containsRunes l chromeTok then "Blink"
  else if containsRunes l webkitTok then "WebKit"
  else if containsRunes l geckoTok && containsRunes l firefoxTok then "Gecko"
  else if containsRunes l tridentTok || containsRunes l msieTok then "Trident"
  else "Other"

/-- String wrapper for the classifier. -/
def detectBrowserEngineStr (s : String) : String :=
  detectBrowserEngine (strRunes s)

/-! ## Shared mutable state: Go maps as association lists

`m[k]` on a Go map returns the zero value when `k` is absent;
`m[k] = v` inserts or overwrites; `m[k]++` is read-modify-write with
zero default. -/

/-- `m[k]` with presence flag: `v, ok := m[k]`. -/
def lookupAssoc {α : Type} : List (String × α) → String → Option α
  | [], _ => none
  | (k, v) :: r, key => if k = key then some v else lookupAssoc r key

/-- `m[key] = v`: overwrite in place or append. -/
def setAssoc {α : Type} : List (String × α) → String → α → List (String × α)
  | [], key, v => [(key, v)]
  | (k, w) :: r, key, v =>
    if k = key then (k, v) :: r else (k, w) :: setAssoc r key v

/-- `m[key]++` with zero default. -/
def bumpAssoc (m : List (String × Nat)) (k : String) : List (String × Nat) :=
  setAssoc m k ((lookupAssoc m k).getD 0 + 1)

/-- Sum of all values of a counter map. -/
def sumVals : List (String × Nat) → Nat
  | [] => 0
  | (_, v) :: r => v + sumVals r

/-! ## Analytics counters and the country cache (main.go lines 35-51, 431) -/

/-- The `Analytics` struct (main.go lines 35-40). Go `int` counters are
modelled as `Nat`: they are only ever incremented. -/
structure Analytics where
  TotalViews : Nat
  PageViews : List (String × Nat)
  BrowserEngines : List (String × Nat)
  Countries : List (String × Nat)
deriving DecidableEq

/-- The package-level `analytics` value at startup (main.go lines
42-46): zero total, empty maps. -/
def initialAnalytics : Analytics :=
  ⟨0, [], [], []⟩

/-- `viewCooldown = 10 * time.Second` (main.go line 51), in
nanoseconds: `time.Duration` counts nanoseconds. -/
def viewCooldown : Nat := 10 * 1000000000

/-- Outcome of the external geolocation call
`http.Get` on `ip-api.com` followed by `json.Unmarshal`: either a
transport error (`err != nil`) or a response carrying the unmarshal
success and the decoded `countryCode` field. -/
inductive GeoResult where
  | transportError : GeoResult
  | response (unmarshalErr : Bool) (countryCode : String) : GeoResult
deriving DecidableEq

/-- `lookupCountry` (main.go lines 433-460) against a geolocation
oracle `net`. Returns the country string, the updated `countryCache`,
and whether an external lookup (`http.Get`) was performed. Empty `ip`
returns "Unknown" immediately; a cache hit returns the cached value
(the empty string mapped to "Unknown"); on a miss, a transport error,
an unmarshal error or an empty `countryCode` caches and returns
"Unknown", otherwise the code is cached and returned. -/
def lookupCountry (net : String → GeoResult)
    (cache : List (String × String)) (ip : String) :
    String × List (String × String) × Bool :=
  if ip = "" then ("Unknown", cache, false)
  else
    match lookupAssoc cache ip with
    | some c => if c = "" then ("Unknown", cache, false) else (c, cache, false)
    | none =>
      match net ip with
      | GeoResult.transportError => ("Unknown", setAssoc cache ip "Unknown", true)
      | GeoResult.response uerr code =>
        if uerr || code = "" then ("Unknown", setAssoc cache ip "Unknown", true)
        else (code, setAssoc cache ip code, true)

/-- The shared mutable serving state: the `analytics` counters, the
`lastView` dedup-timestamp map, and the `countryCache` (main.go lines
42-51 and 431). -/
structure ServerState where
  analytics : Analytics
  lastView : List (String × Nat)
  countryCache : List (String × String)
deriving DecidableEq

/-- All three structures start empty. -/
def initialServerState : ServerState :=
  ⟨initialAnalytics, [], []⟩

/-- The analytics block of the page handler (main.go lines 332-346):
compute `key = ip + "|" + path`; if `key` is absent from `lastView` or
`now.Sub(t) > viewCooldown`, increment the total, the page counter,
the engine counter (via `detectBrowserEngine`) and the country counter
(via `lookupCountry`, which may update the cache), then set
`lastView[key] = now`; otherwise change nothing. `time.Time` instants
are modelled as `Nat` nanoseconds; `now.Sub(t)` as truncated
subtraction, which decides `> viewCooldown` identically for the
instants that arise (a negative Go duration and a truncated-to-zero
difference both fail the strict comparison). -/
def recordView (net : String → GeoResult) (st : ServerState)
    (ip path ua : String) (now : Nat) : ServerState :=
  let key := ip ++ "|" ++ path
  let due : Bool :=
    match lookupAssoc st.lastView key with
    | none => true
    | some t => decide (viewCooldown < now - t)
  if due then
    let engine := detectBrowserEngineStr ua
    let lc := lookupCountry net st.countryCache ip
    { analytics :=
        { TotalViews := st.analytics.TotalViews + 1
          PageViews := bumpAssoc st.analytics.PageViews path
          BrowserEngines := bumpAssoc st.analytics.BrowserEngines engine
          Countries := bumpAssoc st.analytics.Countries lc.1 }
      lastView := setAssoc st.lastView key now
      countryCache := lc.2.1 }
  else st

/-- A served page hit, as seen by the analytics block. -/
structure ViewEvent where
  ip : String
  path : String
  ua : String
  now : Nat

/-- Sequential execution of a list of served page hits. -/
def runEvents (net : String → GeoResult) :
    List ViewEvent → ServerState → ServerState
  | [], st => st
  | e :: es, st => runEvents net es (recordView net st e.ip e.path e.ua e.now)

/-- The four-way balance invariant of the counters. -/
def balanced (a : Analytics) : Prop :=
  a.TotalViews = sumVals a.PageViews ∧
  a.TotalViews = sumVals a.BrowserEngines ∧
  a.TotalViews = sumVals a.Countries

/-! ## Request routing (main.go lines 156-166, 169, 325-351)

Four patterns are registered on the default mux: the `/assets/`
subtree, exact `/favicon.ico`, exact `/analytics`, and the catch-all
`/` page handler. For these patterns, longest-pattern dispatch
coincides with the check order in `serveRequest`. -/

/-- `buildDir` constant (main.go line 26). -/
def buildDir : String := "./.built"

/-- The `Config` struct (main.go lines 29-33). -/
structure Config where
  Port : String
  AnalyticsUser : String
  AnalyticsPass : String
deriving DecidableEq

/-- An incoming request as the handlers consume it: URL path, the IP
from `net.SplitHostPort(r.RemoteAddr)`, the user-agent header, any
presented credential pair (no handler ever reads it), and the arrival
instant. -/
structure Request where
  path : String
  remoteIP : String
  userAgent : String
  auth : Option (String × String)
  now : Nat

/-- What a handler writes back, abstracted to its kind and payload. -/
inductive HTTPResponse where
  | pageHTML (filePath : String) : HTTPResponse
  | notFound : HTTPResponse
  | dashboard (snapshot : Analytics) : HTTPResponse
  | assetFile (assetPath : String) : HTTPResponse
  | faviconFile : HTTPResponse
deriving DecidableEq

/-- The serving-phase filesystem: which compiled artifacts exist under
the build root (`os.Stat(htmlPath)` succeeds) and whether
`favicon.ico` is present. -/
structure ServeFS where
  artifact : String → Bool
  faviconExists : Bool

/-- Character-list test that `pre` occurs at the head of `l`. -/
def charsPrefixAt : List Char → List Char → Bool
  | [], _ => true
  | _ :: _, [] => false
  | a :: as, b :: bs => a = b && charsPrefixAt as bs

/-- The mux's subtree test for the reserved static-asset pattern
`/assets/`. -/
def underAssets (p : String) : Bool :=
  charsPrefixAt "/assets/".data p.data

/-- The catch-all page handler (main.go lines 325-351): substitute
`/index` for the root path, stat `buildDir + path + ".html"`, on hit
run the analytics block and serve the file, on miss reply not-found
and touch nothing. -/
def pageHandler (fs : ServeFS) (net : String → GeoResult)
    (st : ServerState) (r : Request) : HTTPResponse × ServerState :=
  let path := if r.path = "/" then "/index" else r.path
  let htmlPath := buildDir ++ path ++ ".html"
  if fs.artifact htmlPath then
    (HTTPResponse.pageHTML htmlPath,
      recordView net st r.remoteIP path r.userAgent r.now)
  else (HTTPResponse.notFound, st)

/-- Mux dispatch plus the three non-page handlers: `/assets/*` is a
static file server over `./assets` (no analytics), `/favicon.ico`
serves a fixed file if present (no analytics), `/analytics` writes the
dashboard rendered from the current counters (no credential check
appears in the handler), and everything else goes to the page
handler. -/
def serveRequest (cfg : Config) (fs : ServeFS) (net : String → GeoResult)
    (st : ServerState) (r : Request) : HTTPResponse × ServerState :=
  if underAssets r.path then
    (HTTPResponse.assetFile r.path, st)
  else if r.path = "/favicon.ico" then
    (if fs.faviconExists then HTTPResponse.faviconFile else HTTPResponse.notFound, st)
  else if r.path = "/analytics" then
    (HTTPResponse.dashboard st.analytics, st)
  else pageHandler fs net st r

/-! ## Startup (main.go lines 120-145, 353-354)

`main` checks for `web/index.gmd`, then for reserved `web/assets` and
`web/analytics` subdirectories — each failure is `log.Fatalf`, which
aborts the process — then compiles; a compile error is again fatal.
Only after all of that is `ListenAndServe` reached. -/

/-- The startup-time filesystem as the guards observe it. -/
structure StartupFS where
  indexExists : Bool
  assetsDirExists : Bool
  analyticsDirExists : Bool
  compileError : Option String
deriving DecidableEq

/-- Either the process aborts fatally before any listener is opened,
or it begins serving on the configured port. -/
inductive StartupOutcome where
  | fatal (msg : String) : StartupOutcome
  | serving (port : String) : StartupOutcome
deriving DecidableEq

/-- The startup control flow of `main` (main.go lines 120-145,
353-354): guards in source order, then compilation, then the
listener. -/
def startup (fs : StartupFS) (cfg : Config) : StartupOutcome :=
  if !fs.indexExists then StartupOutcome.fatal "index.gmd not found"
  else if fs.assetsDirExists then StartupOutcome.fatal "assets directory inside web"
  else if fs.analyticsDirExists then StartupOutcome.fatal "analytics directory inside web"
  else
    match fs.compileError with
    | some e => StartupOutcome.fatal e
    | none => StartupOutcome.serving cfg.Port

/-! ## Concrete fixtures shared by the witnesses -/

/-- An oracle whose every lookup fails at transport level. -/
def netFail : String → GeoResult := fun _ => GeoResult.transportError

/-- A serving filesystem with every artifact present. -/
def fsAll : ServeFS := ⟨fun _ => true, true⟩

/-- A serving filesystem with no artifact present. -/
def fsNone : ServeFS := ⟨fun _ => false, false⟩

/-- A configuration that does supply dashboard credentials. -/
def cfgWithCreds : Config := ⟨"8080", "admin", "secret"⟩

/-- A `/analytics` request presenting no credentials. -/
def reqNoAuth : Request := ⟨"/analytics", "1.2.3.4", "curl/8.0", none, 0⟩

/-! ## Helper lemmas: the greedy scanner -/

theorem scanRun_append (p : Char → Bool) (l : List Char) :
    (scanRun p l).1 ++ (scanRun p l).2 = l := by
  induction l with
  | nil => simp [scanRun]
  | cons c r ih =>
    simp only [scanRun]
    split
    · simpa using ih
    · simp

theorem scanRun_forall (p : Char → Bool) (l : List Char) :
    ∀ c ∈ (scanRun p l).1, p c = true := by
  induction l with
  | nil => simp [scanRun]
  | cons c r ih =>
    simp only [scanRun]
    split
    · next hc =>
      intro d hd
      rcases List.mem_cons.mp hd with h | h
      · exact h ▸ hc
      · exact ih d h
    · simp

/-- On an input that starts with an admissible run followed by an
inadmissible character, the greedy scan splits exactly there. -/
theorem scanRun_exact (p : Char → Bool) (xs : List Char) (y : Char)
    (ys : List Char) (hxs : ∀ c ∈ xs, p c = true) (hy : p y = false) :
    scanRun p (xs ++ y :: ys) = (xs, y :: ys) := by
  induction xs with
  | nil => simp [scanRun, hy]
  | cons c r ih =>
    have hc : p c = true := hxs c (by simp)
    have ih2 := ih fun d hd => hxs d (by simp [hd])
    simp only [List.cons_append, scanRun, hc, if_true, List.append_eq, ih2]

theorem stripChar_eq_some {c : Char} {l r : List Char} :
    stripChar c l = some r ↔ l = c :: r := by
  constructor
  · intro h
    match l with
    | [] => simp [stripChar] at h
    | d :: t =>
      simp only [stripChar] at h
      split at h
      · next hd =>
        subst hd
        injection h with h
        rw [h]
      · exact absurd h (by simp)
  · rintro rfl
    simp [stripChar]

/-! ## Helper lemmas: the fastlink matcher -/

/-- Characterization of a successful fastlink match: the input
decomposes as `(` target `)[` label `]` rest, with a non-empty target
of target-admissible characters and a non-empty label of
label-admissible characters. -/
theorem matchFastlink_eq_some {s tg lb rst : List Char} :
    matchFastlink s = some (tg, lb, rst) ↔
      tg ≠ [] ∧ lb ≠ [] ∧ (∀ c ∈ tg, isTargetChar c = true) ∧
      (∀ c ∈ lb, isLabelChar c = true) ∧
      s = '(' :: (tg ++ ')' :: '[' :: (lb ++ ']' :: rst)) := by
  constructor
  · intro h
    simp only [matchFastlink] at h
    rcases hs : stripChar '(' s with - | rest
    · rw [hs] at h; simp at h
    · rw [hs, Option.some_bind] at h
      rcases hq1 : scanRun isTargetChar rest with ⟨tg1, rem1⟩
      rw [hq1] at h
      simp only at h
      split at h
      · simp at h
      · next htg1 =>
        rcases h1 : stripChar ')' rem1 with - | r1
        · rw [h1] at h; simp at h
        · rw [h1, Option.some_bind] at h
          rcases h2 : stripChar '[' r1 with - | r2
          · rw [h2] at h; simp at h
          · rw [h2, Option.some_bind] at h
            rcases hq2 : scanRun isLabelChar r2 with ⟨lb1, rem2⟩
            rw [hq2] at h
            simp only at h
            split at h
            · simp at h
            · next hlb1 =>
              rcases h3 : stripChar ']' rem2 with - | r3
              · rw [h3] at h; simp at h
              · rw [h3, Option.some_bind] at h
                obtain ⟨e1, e2, e3⟩ : tg1 = tg ∧ lb1 = lb ∧ r3 = rst := by
                  injection h with h
                  injection h with ha hb
                  injection hb with hb hc
                  exact ⟨ha, hb, hc⟩
                subst e1; subst e2; subst e3
                have hrest : rest = tg1 ++ rem1 := by
                  have := scanRun_append isTargetChar rest
                  rw [hq1] at this
                  exact this.symm
                have hr2 : r2 = lb1 ++ rem2 := by
                  have := scanRun_append isLabelChar r2
                  rw [hq2] at this
                  exact this.symm
                refine ⟨htg1, hlb1, ?_, ?_, ?_⟩
                · have := scanRun_forall isTargetChar rest
                  rw [hq1] at this
                  exact this
                · have := scanRun_forall isLabelChar r2
                  rw [hq2] at this
                  exact this
                · rw [stripChar_eq_some] at hs h1 h2 h3
                  rw [hs, hrest, h1, h2, hr2, h3]
  · rintro ⟨ht, hl, htc, hlc, rfl⟩
    have e1 : scanRun isTargetChar (tg ++ ')' :: '[' :: (lb ++ ']' :: rst)) =
        (tg, ')' :: '[' :: (lb ++ ']' :: rst)) :=
      scanRun_exact _ _ _ _ htc (by decide)
    have e2 : scanRun isLabelChar (lb ++ ']' :: rst) = (lb, ']' :: rst) :=
      scanRun_exact _ _ _ _ hlc (by decide)
    simp [matchFastlink, stripChar, e1, e2, ht, hl]

/-- A position whose character is not `(` never starts a match. -/
theorem matchFastlink_not_paren {c : Char} {rest : List Char} (hc : ¬(c = '(')) :
    matchFastlink (c :: rest) = none := by
  simp [matchFastlink, stripChar, hc]

/-- The remainder after a match is no longer than the text after the
opening parenthesis. -/
theorem matchFastlink_rest_length {c : Char} {rest tg lb rst : List Char}
    (h : matchFastlink (c :: rest) = some (tg, lb, rst)) :
    rst.length ≤ rest.length := by
  rw [matchFastlink_eq_some] at h
  obtain ⟨-, -, -, -, hs⟩ := h
  have : rest = tg ++ ')' :: '[' :: (lb ++ ']' :: rst) := by
    injection hs
  subst this
  simp
  omega

/-! ## Helper lemmas: the preprocessor scanner -/

theorem preprocessFuel_adequate :
    ∀ f g s, s.length ≤ f → s.length ≤ g →
      preprocessFuel f s = preprocessFuel g s := by
  intro f
  induction f with
  | zero =>
    intro g s hf _
    have : s = [] := List.length_eq_zero.mp (Nat.le_zero.mp hf)
    subst this
    cases g <;> rfl
  | succ f ih =>
    intro g s hf hg
    match s with
    | [] => cases g <;> rfl
    | c :: rest =>
      match g with
      | 0 => simp at hg
      | g + 1 =>
        simp only [List.length_cons, Nat.add_le_add_iff_right] at hf hg
        simp only [preprocessFuel]
        rcases hm : matchFastlink (c :: rest) with - | ⟨tgt, lbl, r⟩
        · exact congrArg (c :: ·) (ih g rest hf hg)
        · have hr := matchFastlink_rest_length hm
          exact congrArg
            (fun x => '[' :: (lbl ++ ']' :: '(' :: '/' :: (tgt ++ ')' :: x)))
            (ih g r (by omega) (by omega))

theorem preprocessGMD_nil : preprocessGMD [] = [] := rfl

theorem preprocessGMD_cons (c : Char) (rest : List Char) :
    preprocessGMD (c :: rest) =
      match matchFastlink (c :: rest) with
      | some (tgt, lbl, r) =>
        '[' :: (lbl ++ ']' :: '(' :: '/' :: (tgt ++ ')' :: preprocessGMD r))
      | none => c :: preprocessGMD rest := by
  show preprocessFuel (rest.length + 1) (c :: rest) = _
  simp only [preprocessFuel]
  rcases hm : matchFastlink (c :: rest) with - | ⟨tgt, lbl, r⟩
  · rfl
  · have hr := matchFastlink_rest_length hm
    exact congrArg
      (fun x => '[' :: (lbl ++ ']' :: '(' :: '/' :: (tgt ++ ')' :: x)))
      (preprocessFuel_adequate rest.length r.length r hr le_rfl)

/-- Inputs without any occurrence of the pattern pass through
unchanged. -/
theorem preprocessGMD_of_not_hasFastlink :
    ∀ s : List Char, hasFastlink s = false → preprocessGMD s = s := by
  intro s
  induction s with
  | nil => intro _; rfl
  | cons c rest ih =>
    intro h
    rw [preprocessGMD_cons]
    rcases hm : matchFastlink (c :: rest) with - | v
    · simp only [hasFastlink, hm, Option.isSome_none, Bool.false_or] at h
      exact congrArg (c :: ·) (ih h)
    · simp [hasFastlink, hm] at h

/-- Decomposition: a fastlink occurrence preceded by text containing no
opening parenthesis is rewritten in place, the preceding text passes
through, and scanning resumes after the occurrence. -/
theorem preprocessGMD_decompose :
    ∀ pre : List Char, ∀ tgt lbl post : List Char,
      '(' ∉ pre → tgt ≠ [] → (∀ c ∈ tgt, isTargetChar c = true) →
      lbl ≠ [] → (∀ c ∈ lbl, isLabelChar c = true) →
      preprocessGMD (pre ++ '(' :: (tgt ++ ')' :: '[' :: (lbl ++ ']' :: post))) =
        pre ++ '[' :: (lbl ++ ']' :: '(' :: '/' :: (tgt ++ ')' :: preprocessGMD post)) := by
  intro pre
  induction pre with
  | nil =>
    intro tgt lbl post _ ht htc hl hlc
    have hm : matchFastlink ('(' :: (tgt ++ ')' :: '[' :: (lbl ++ ']' :: post))) =
        some (tgt, lbl, post) :=
      matchFastlink_eq_some.mpr ⟨ht, hl, htc, hlc, rfl⟩
    rw [List.nil_append, List.nil_append, preprocessGMD_cons, hm]
  | cons c pre ih =>
    intro tgt lbl post hpre ht htc hl hlc
    have hc : ¬(c = '(') := by
      intro hcontra
      exact hpre (by simp [hcontra])
    have hpre2 : '(' ∉ pre := fun h => hpre (List.mem_cons_of_mem _ h)
    rw [List.cons_append, List.cons_append, preprocessGMD_cons,
      matchFastlink_not_paren hc]
    exact congrArg (c :: ·) (ih tgt lbl post hpre2 ht htc hl hlc)

/-! ## Helper lemmas: the classifier -/

theorem asciiLower_asciiUpper (n : Nat) :
    asciiLower (asciiUpper n) = asciiLower n := by
  simp only [asciiLower, asciiUpper]
  split_ifs <;> omega

theorem map_asciiLower_asciiUpper (ua : List Nat) :
    (ua.map asciiUpper).map asciiLower = ua.map asciiLower := by
  induction ua with
  | nil => rfl
  | cons a t ih => simp [asciiLower_asciiUpper, ih]

/-! ## Helper lemmas: association maps and the aggregator -/

theorem lookupAssoc_setAssoc {α : Type} (m : List (String × α)) (k : String) (v : α) :
    lookupAssoc (setAssoc m k v) k = some v := by
  induction m with
  | nil => simp [setAssoc, lookupAssoc]
  | cons kv r ih =>
    obtain ⟨k1, w⟩ := kv
    simp only [setAssoc]
    split
    · next h => simp [lookupAssoc, h]
    · next h => simp [lookupAssoc, h, ih]

theorem sumVals_bumpAssoc (m : List (String × Nat)) (k : String) :
    sumVals (bumpAssoc m k) = sumVals m + 1 := by
  induction m with
  | nil => simp [bumpAssoc, setAssoc, lookupAssoc, sumVals]
  | cons kv r ih =>
    obtain ⟨k1, w⟩ := kv
    simp only [bumpAssoc, lookupAssoc, setAssoc] at ih ⊢
    split
    · next h =>
      simp only [h, if_pos rfl, sumVals, Option.getD_some]
      omega
    · next h =>
      simp only [sumVals, ih]
      omega

/-- A view whose dedup key is untracked is counted: all four counter
structures are touched and the timestamp is recorded. -/
theorem recordView_fresh_eq (net : String → GeoResult) (st : ServerState)
    (ip path ua : String) (now : Nat)
    (h : lookupAssoc st.lastView (ip ++ "|" ++ path) = none) :
    recordView net st ip path ua now =
      ⟨⟨st.analytics.TotalViews + 1,
        bumpAssoc st.analytics.PageViews path,
        bumpAssoc st.analytics.BrowserEngines (detectBrowserEngineStr ua),
        bumpAssoc st.analytics.Countries (lookupCountry net st.countryCache ip).1⟩,
       setAssoc st.lastView (ip ++ "|" ++ path) now,
       (lookupCountry net st.countryCache ip).2.1⟩ := by
  simp [recordView, h]

/-- A view whose dedup key is tracked with a stale timestamp is
counted. -/
theorem recordView_stale_eq (net : String → GeoResult) (st : ServerState)
    (ip path ua : String) (now t : Nat)
    (h : lookupAssoc st.lastView (ip ++ "|" ++ path) = some t)
    (hgt : viewCooldown < now - t) :
    recordView net st ip path ua now =
      ⟨⟨st.analytics.TotalViews + 1,
        bumpAssoc st.analytics.PageViews path,
        bumpAssoc st.analytics.BrowserEngines (detectBrowserEngineStr ua),
        bumpAssoc st.analytics.Countries (lookupCountry net st.countryCache ip).1⟩,
       setAssoc st.lastView (ip ++ "|" ++ path) now,
       (lookupCountry net st.countryCache ip).2.1⟩ := by
  simp [recordView, h, hgt]

/-- A view within the cooldown window is suppressed without any state
change. -/
theorem recordView_suppressed_eq (net : String → GeoResult) (st : ServerState)
    (ip path ua : String) (now t : Nat)
    (h : lookupAssoc st.lastView (ip ++ "|" ++ path) = some t)
    (hle : now - t ≤ viewCooldown) :
    recordView net st ip path ua now = st := by
  have hdue : decide (viewCooldown < now - t) = false := by
    simp
    omega
  simp [recordView, h, hdue]

theorem recordView_balanced (net : String → GeoResult) (st : ServerState)
    (ip path ua : String) (now : Nat) (h : balanced st.analytics) :
    balanced (recordView net st ip path ua now).analytics := by
  obtain ⟨b1, b2, b3⟩ := h
  simp only [recordView]
  split
  · refine ⟨?_, ?_, ?_⟩ <;> simp only [sumVals_bumpAssoc] <;> omega
  · exact ⟨b1, b2, b3⟩

theorem recordView_total_le (net : String → GeoResult) (st : ServerState)
    (ip path ua : String) (now : Nat) :
    st.analytics.TotalViews ≤ (recordView net st ip path ua now).analytics.TotalViews := by
  simp only [recordView]
  split
  · exact Nat.le_succ _
  · exact Nat.le_refl _

theorem runEvents_balanced (net : String → GeoResult) :
    ∀ (evs : List ViewEvent) (st : ServerState),
      balanced st.analytics → balanced (runEvents net evs st).analytics := by
  intro evs
  induction evs with
  | nil => intro st h; exact h
  | cons e es ih =>
    intro st h
    exact ih _ (recordView_balanced net st e.ip e.path e.ua e.now h)

theorem runEvents_total_le (net : String → GeoResult) :
    ∀ (evs : List ViewEvent) (st : ServerState),
      st.analytics.TotalViews ≤ (runEvents net evs st).analytics.TotalViews := by
  intro evs
  induction evs with
  | nil => intro st; exact Nat.le_refl _
  | cons e es ih =>
    intro st
    exact Nat.le_trans (recordView_total_le net st e.ip e.path e.ua e.now) (ih _)

/-! ## The claims -/

/-- C1: for an identity and page whose dedup key `ip ++ "|" ++ path`
is untracked, the first served-page RecordView counts (total rises by
exactly 1 and the key's timestamp becomes the call instant); a second
call at most `viewCooldown` later changes nothing at all — no counter
and no timestamp — while a second call strictly later than the
cooldown brings the total to exactly 2 more than the original. -/
theorem recordView_dedup (net : String → GeoResult) (st : ServerState)
    (ip path ua1 ua2 : String) (t1 t2 : Nat)
    (hfresh : lookupAssoc st.lastView (ip ++ "|" ++ path) = none) :
    lookupAssoc (recordView net st ip path ua1 t1).lastView (ip ++ "|" ++ path) =
      some t1 ∧
    (recordView net st ip path ua1 t1).analytics.TotalViews =
      st.analytics.TotalViews + 1 ∧
    (t2 - t1 ≤ viewCooldown →
      recordView net (recordView net st ip path ua1 t1) ip path ua2 t2 =
        recordView net st ip path ua1 t1) ∧
    (viewCooldown < t2 - t1 →
      (recordView net (recordView net st ip path ua1 t1) ip path ua2 t2).analytics.TotalViews =
        st.analytics.TotalViews + 2) := by
  have hst1 := recordView_fresh_eq net st ip path ua1 t1 hfresh
  have hkey : lookupAssoc (recordView net st ip path ua1 t1).lastView
      (ip ++ "|" ++ path) = some t1 := by
    rw [hst1]
    exact lookupAssoc_setAssoc _ _ _
  have htot : (recordView net st ip path ua1 t1).analytics.TotalViews =
      st.analytics.TotalViews + 1 := by
    rw [hst1]
  refine ⟨hkey, htot, ?_, ?_⟩
  · intro hle
    exact recordView_suppressed_eq net _ ip path ua2 t2 t1 hkey hle
  · intro hgt
    rw [recordView_stale_eq net (recordView net st ip path ua1 t1)
      ip path ua2 t2 t1 hkey hgt]
    show (recordView net st ip path ua1 t1).analytics.TotalViews + 1 =
      st.analytics.TotalViews + 2
    rw [htot]

/-- C1 witness: a concrete suppressed second view. -/
theorem recordView_dedup_witness :
    recordView netFail
        (recordView netFail initialServerState "1.2.3.4" "/index" "ua" 1000)
        "1.2.3.4" "/index" "ua" 2000 =
      recordView netFail initialServerState "1.2.3.4" "/index" "ua" 1000 :=
  ((recordView_dedup netFail initialServerState "1.2.3.4" "/index" "ua" "ua"
      1000 2000 rfl).2.2.1) (by decide)

/-- C2: the preprocessor rewrites an occurrence of
`(<target>)[<label>]` — non-empty target without whitespace or `)`,
non-empty label without `]` — to `[<label>](/<target>)` (with any
preceding parenthesis-free text passing through and scanning resuming
after the occurrence), passes inputs without any occurrence through
unchanged, and on the spec's concrete examples maps
`(abc)[Go to ABC]` to `[Go to ABC](/abc)` and leaves `(abc[Go`
verbatim. -/
theorem preprocessGMD_spec :
    (∀ pre tgt lbl post : List Char,
      '(' ∉ pre → tgt ≠ [] → (∀ c ∈ tgt, isTargetChar c = true) →
      lbl ≠ [] → (∀ c ∈ lbl, isLabelChar c = true) →
      preprocessGMD (pre ++ '(' :: (tgt ++ ')' :: '[' :: (lbl ++ ']' :: post))) =
        pre ++ '[' :: (lbl ++ ']' :: '(' :: '/' :: (tgt ++ ')' :: preprocessGMD post))) ∧
    (∀ s : List Char, hasFastlink s = false → preprocessGMD s = s) ∧
    preprocessGMDStr "(abc)[Go to ABC]" = "[Go to ABC](/abc)" ∧
    preprocessGMDStr "(abc[Go" = "(abc[Go" :=
  ⟨preprocessGMD_decompose, preprocessGMD_of_not_hasFastlink, by decide, by decide⟩

/-- C2 witness: a concrete in-context rewrite. -/
theorem preprocessGMD_spec_witness :
    preprocessGMD (['x', ' '] ++ '(' :: (['a'] ++ ')' :: '[' :: (['b'] ++ ']' :: ['!']))) =
      ['x', ' '] ++ '[' :: (['b'] ++ ']' :: '(' :: '/' :: (['a'] ++ ')' :: preprocessGMD ['!'])) :=
  preprocessGMD_spec.1 ['x', ' '] ['a'] ['b'] ['!']
    (by decide) (by decide) (by decide) (by decide) (by decide)

/-- C3 counterexample: the preprocessor is not idempotent — on
`(a)[b][x]` the first pass yields `[b](/a)[x]`, whose produced
standard link is immediately followed by `[x]` and is re-matched by
the custom pattern on a second pass, yielding `[b][x](//a)`. -/
theorem preprocessGMD_not_idempotent :
    preprocessGMDStr (preprocessGMDStr "(a)[b][x]") ≠ preprocessGMDStr "(a)[b][x]" := by
  decide

/-- C3 amended: the preprocessor is idempotent exactly on those inputs
whose output contains no further occurrence of the custom pattern; in
general a rewritten link immediately followed by a bracketed segment
is re-matched, so idempotence fails. -/
theorem preprocessGMD_idempotent_on_stable_outputs :
    ∀ s : List Char, hasFastlink (preprocessGMD s) = false →
      preprocessGMD (preprocessGMD s) = preprocessGMD s :=
  fun s h => preprocessGMD_of_not_hasFastlink (preprocessGMD s) h

/-- C3 witness: a rewritten input whose output is stable. -/
theorem preprocessGMD_idempotent_on_stable_outputs_witness :
    preprocessGMD (preprocessGMD "(a)[b]".data) = preprocessGMD "(a)[b]".data :=
  preprocessGMD_idempotent_on_stable_outputs "(a)[b]".data (by decide)

/-- C4: the country resolver answers an empty address with "Unknown"
and no lookup; for a non-empty address the second of two calls always
hits the cache (no lookup, same answer, same cache), so at most one
lookup happens in total; a cache miss that fails in transport or
parsing (or decodes an empty code) caches and returns "Unknown"; a
cached empty value is answered as "Unknown". -/
theorem lookupCountry_cache_correct (net : String → GeoResult)
    (cache : List (String × String)) (ip : String) :
    (ip = "" → lookupCountry net cache ip = ("Unknown", cache, false)) ∧
    (ip ≠ "" →
      (lookupCountry net (lookupCountry net cache ip).2.1 ip).2.2 = false ∧
      (lookupCountry net (lookupCountry net cache ip).2.1 ip).1 =
        (lookupCountry net cache ip).1 ∧
      (lookupCountry net (lookupCountry net cache ip).2.1 ip).2.1 =
        (lookupCountry net cache ip).2.1 ∧
      (lookupCountry net cache ip).2.2.toNat +
        (lookupCountry net (lookupCountry net cache ip).2.1 ip).2.2.toNat ≤ 1) ∧
    (ip ≠ "" → lookupAssoc cache ip = none → net ip = GeoResult.transportError →
      lookupCountry net cache ip = ("Unknown", setAssoc cache ip "Unknown", true)) ∧
    (ip ≠ "" → lookupAssoc cache ip = none →
      ∀ uerr code, net ip = GeoResult.response uerr code →
      (uerr = true ∨ code = "") →
      lookupCountry net cache ip = ("Unknown", setAssoc cache ip "Unknown", true)) ∧
    (ip ≠ "" → lookupAssoc cache ip = some "" →
      lookupCountry net cache ip = ("Unknown", cache, false)) := by
  refine ⟨?_, ?_, ?_, ?_, ?_⟩
  · intro h
    simp [lookupCountry, h]
  · intro h
    rcases hc : lookupAssoc cache ip with - | c
    · rcases hn : net ip with - | ⟨uerr, code⟩
      · have h1 : lookupCountry net cache ip =
            ("Unknown", setAssoc cache ip "Unknown", true) := by
          simp [lookupCountry, h, hc, hn]
        have h2 : lookupAssoc (setAssoc cache ip "Unknown") ip = some "Unknown" :=
          lookupAssoc_setAssoc _ _ _
        rw [h1]
        simp [lookupCountry, h, h2]
      · by_cases hbad : uerr = true ∨ code = ""
        · have h1 : lookupCountry net cache ip =
              ("Unknown", setAssoc cache ip "Unknown", true) := by
            rcases hbad with hb | hb
            · simp [lookupCountry, h, hc, hn, hb]
            · simp [lookupCountry, h, hc, hn, hb]
          have h2 : lookupAssoc (setAssoc cache ip "Unknown") ip = some "Unknown" :=
            lookupAssoc_setAssoc _ _ _
          rw [h1]
          simp [lookupCountry, h, h2]
        · push_neg at hbad
          obtain ⟨hu, hcode⟩ := hbad
          have hu2 : uerr = false := by
            cases uerr
            · rfl
            · exact absurd rfl hu
          have h1 : lookupCountry net cache ip = (code, setAssoc cache ip code, true) := by
            simp [lookupCountry, h, hc, hn, hu2, hcode]
          have h2 : lookupAssoc (setAssoc cache ip code) ip = some code :=
            lookupAssoc_setAssoc _ _ _
          rw [h1]
          simp [lookupCountry, h, h2, hcode]
    · by_cases hce : c = ""
      · have h1 : lookupCountry net cache ip = ("Unknown", cache, false) := by
          simp [lookupCountry, h, hc, hce]
        rw [h1]
        simp [lookupCountry, h, hc, hce]
      · have h1 : lookupCountry net cache ip = (c, cache, false) := by
          simp [lookupCountry, h, hc, hce]
        rw [h1]
        simp [lookupCountry, h, hc, hce]
  · intro h hmiss hnet
    simp [lookupCountry, h, hmiss, hnet]
  · intro h hmiss uerr code hnet hbad
    rcases hbad with hb | hb
    · simp [lookupCountry, h, hmiss, hnet, hb]
    · simp [lookupCountry, h, hmiss, hnet, hb]
  · intro h hsome
    simp [lookupCountry, h, hsome]

/-- C4 witness: a concrete failed lookup, cached as "Unknown". -/
theorem lookupCountry_cache_correct_witness :
    lookupCountry netFail [] "1.2.3.4" =
      ("Unknown", setAssoc [] "1.2.3.4" "Unknown", true) :=
  ((lookupCountry_cache_correct netFail [] "1.2.3.4").2.2.1) (by decide) rfl rfl

/-- C5: a page request whose compiled artifact is absent gets
not-found and the whole server state — every counter and timestamp
map — is untouched; a request under `/assets/` never changes the
state even when the asset exists; the root path `/` is handled
exactly as `/index`. -/
theorem routing_frame_effects (cfg : Config) (fs : ServeFS)
    (net : String → GeoResult) (st : ServerState) (r : Request) :
    (underAssets r.path = false → r.path ≠ "/favicon.ico" →
      r.path ≠ "/analytics" →
      fs.artifact (buildDir ++ (if r.path = "/" then "/index" else r.path) ++ ".html") = false →
      serveRequest cfg fs net st r = (HTTPResponse.notFound, st)) ∧
    (underAssets r.path = true → (serveRequest cfg fs net st r).2 = st) ∧
    (r.path = "/" →
      serveRequest cfg fs net st r =
        serveRequest cfg fs net st ⟨"/index", r.remoteIP, r.userAgent, r.auth, r.now⟩) := by
  refine ⟨?_, ?_, ?_⟩
  · intro h1 h2 h3 h4
    simp [serveRequest, pageHandler, h1, h2, h3, h4]
  · intro h1
    simp [serveRequest, h1]
  · intro h
    rcases r with ⟨p, rip, rua, rauth, rnow⟩
    obtain rfl : p = "/" := h
    rfl

/-- C5 witness: a concrete missing page leaves the initial state
intact. -/
theorem routing_frame_effects_witness :
    serveRequest cfgWithCreds fsNone netFail initialServerState
        ⟨"/nonexistent", "1.2.3.4", "ua", none, 0⟩ =
      (HTTPResponse.notFound, initialServerState) :=
  (routing_frame_effects cfgWithCreds fsNone netFail initialServerState
      ⟨"/nonexistent", "1.2.3.4", "ua", none, 0⟩).1
    (by decide) (by decide) (by decide) rfl

/-- C6: the classifier is a case-insensitive pure function of the
user-agent: uppercasing the input never changes the answer;
webkit+chrome gives "Blink", webkit alone "WebKit", gecko+firefox (no
webkit) "Gecko", trident or msie (none of the earlier) "Trident"; the
empty string and every token-free string give "Other"; the result is
always one of the five labels. -/
theorem detectBrowserEngine_spec :
    (∀ ua : List Nat, detectBrowserEngine (ua.map asciiUpper) = detectBrowserEngine ua) ∧
    (∀ ua : List Nat,
      (containsRunes (ua.map asciiLower) webkitTok = true ∧
       containsRunes (ua.map asciiLower) chromeTok = true →
        detectBrowserEngine ua = "Blink") ∧
      (containsRunes (ua.map asciiLower) webkitTok = true ∧
       containsRunes (ua.map asciiLower) chromeTok = false →
        detectBrowserEngine ua = "WebKit") ∧
      (containsRunes (ua.map asciiLower) webkitTok = false ∧
       containsRunes (ua.map asciiLower) geckoTok = true ∧
       containsRunes (ua.map asciiLower) firefoxTok = true →
        detectBrowserEngine ua = "Gecko") ∧
      (containsRunes (ua.map asciiLower) webkitTok = false ∧
       (containsRunes (ua.map asciiLower) geckoTok = false ∨
        containsRunes (ua.map asciiLower) firefoxTok = false) ∧
       (containsRunes (ua.map asciiLower) tridentTok = true ∨
        containsRunes (ua.map asciiLower) msieTok = true) →
        detectBrowserEngine ua = "Trident") ∧
      (containsRunes (ua.map asciiLower) webkitTok = false ∧
       (containsRunes (ua.map asciiLower) geckoTok = false ∨
        containsRunes (ua.map asciiLower) firefoxTok = false) ∧
       containsRunes (ua.map asciiLower) tridentTok = false ∧
       containsRunes (ua.map asciiLower) msieTok = false →
        detectBrowserEngine ua = "Other")) ∧
    detectBrowserEngineStr "" = "Other" ∧
    (∀ ua : List Nat,
      detectBrowserEngine ua = "Blink" ∨ detectBrowserEngine ua = "WebKit" ∨
      detectBrowserEngine ua = "Gecko" ∨ detectBrowserEngine ua = "Trident" ∨
      detectBrowserEngine ua = "Other") := by
  refine ⟨?_, ?_, ?_, ?_⟩
  · intro ua
    simp only [detectBrowserEngine, map_asciiLower_asciiUpper]
  · intro ua
    refine ⟨?_, ?_, ?_, ?_, ?_⟩
    · rintro ⟨h1, h2⟩
      simp [detectBrowserEngine, h1, h2]
    · rintro ⟨h1, h2⟩
      simp [detectBrowserEngine, h1, h2]
    · rintro ⟨h1, h2, h3⟩
      simp [detectBrowserEngine, h1, h2, h3]
    · rintro ⟨h1, h2, h3⟩
      rcases h2 with h2 | h2 <;> rcases h3 with h3 | h3 <;>
        simp [detectBrowserEngine, h1, h2, h3]
    · rintro ⟨h1, h2, h3, h4⟩
      rcases h2 with h2 | h2 <;>
        simp [detectBrowserEngine, h1, h2, h3, h4]
  · decide
  · intro ua
    simp only [detectBrowserEngine]
    split_ifs <;> simp

/-- C6 witness: a user-agent advertising both AppleWebKit and Chrome
is classified Blink, not WebKit. -/
theorem detectBrowserEngine_spec_witness :
    detectBrowserEngine (strRunes "Mozilla/5.0 AppleWebKit/537.36 Chrome/120.0") =
      "Blink" :=
  ((detectBrowserEngine_spec.2.1
      (strRunes "Mozilla/5.0 AppleWebKit/537.36 Chrome/120.0")).1) (by decide)

/-- C7: every startup guard aborts fatally before serving — a missing
root document, a reserved `assets` or `analytics` subdirectory, or a
compile error — and the process reaches the listener only when the
root document exists, no reserved subdirectory exists, and
compilation succeeded. -/
theorem startup_guards (fs : StartupFS) (cfg : Config) :
    (fs.indexExists = false →
      startup fs cfg = StartupOutcome.fatal "index.gmd not found") ∧
    (fs.indexExists = true → fs.assetsDirExists = true →
      startup fs cfg = StartupOutcome.fatal "assets directory inside web") ∧
    (fs.indexExists = true → fs.assetsDirExists = false →
      fs.analyticsDirExists = true →
      startup fs cfg = StartupOutcome.fatal "analytics directory inside web") ∧
    (∀ e, fs.indexExists = true → fs.assetsDirExists = false →
      fs.analyticsDirExists = false → fs.compileError = some e →
      startup fs cfg = StartupOutcome.fatal e) ∧
    (∀ p, startup fs cfg = StartupOutcome.serving p →
      fs.indexExists = true ∧ fs.assetsDirExists = false ∧
      fs.analyticsDirExists = false ∧ fs.compileError = none ∧ p = cfg.Port) := by
  obtain ⟨i, a, an, ce⟩ := fs
  refine ⟨?_, ?_, ?_, ?_, ?_⟩
  · rintro rfl; rfl
  · rintro rfl rfl; rfl
  · rintro rfl rfl rfl; rfl
  · rintro e rfl rfl rfl rfl; rfl
  · intro p hp
    cases i <;> cases a <;> cases an <;> rcases ce with - | e <;>
      simp_all [startup]

/-- C7 witness: a source tree without the root document aborts. -/
theorem startup_guards_witness :
    startup ⟨false, false, false, none⟩ cfgWithCreds =
      StartupOutcome.fatal "index.gmd not found" :=
  (startup_guards ⟨false, false, false, none⟩ cfgWithCreds).1 rfl

/-- C8 counterexample: with credentials configured and none presented,
the `/analytics` request is still served the dashboard — the handler
performs no credential check, so the claimed gating is absent. -/
theorem analytics_auth_counterexample :
    cfgWithCreds.AnalyticsUser ≠ "" ∧ cfgWithCreds.AnalyticsPass ≠ "" ∧
    reqNoAuth.path = "/analytics" ∧ reqNoAuth.auth = none ∧
    serveRequest cfgWithCreds fsAll netFail initialServerState reqNoAuth =
      (HTTPResponse.dashboard initialAnalytics, initialServerState) :=
  ⟨by decide, by decide, rfl, rfl, rfl⟩

/-- C8 amended: `GET /analytics` is served the dashboard rendered from
the current counters unconditionally; the configured credential pair
is loaded but never consulted. -/
theorem analytics_dashboard_unconditional (cfg : Config) (fs : ServeFS)
    (net : String → GeoResult) (st : ServerState) (r : Request)
    (h : r.path = "/analytics") :
    serveRequest cfg fs net st r = (HTTPResponse.dashboard st.analytics, st) := by
  rcases r with ⟨p, rip, rua, rauth, rnow⟩
  obtain rfl : p = "/analytics" := h
  rfl

/-- C8 witness: the unconditional dashboard at a concrete request. -/
theorem analytics_dashboard_unconditional_witness :
    serveRequest cfgWithCreds fsAll netFail initialServerState reqNoAuth =
      (HTTPResponse.dashboard initialAnalytics, initialServerState) :=
  analytics_dashboard_unconditional cfgWithCreds fsAll netFail
    initialServerState reqNoAuth rfl

/-- C10: from the empty state, after any sequence of sequentially
executed view recordings, the total equals the sum of the per-page
counters, the sum of the per-engine counters, and the sum of the
per-country counters (a counted view bumps all four structures
together); and the total never decreases across any recording
sequence from any state. -/
theorem analytics_invariant :
    (∀ (net : String → GeoResult) (evs : List ViewEvent),
      balanced ((runEvents net evs initialServerState).analytics)) ∧
    (∀ (net : String → GeoResult) (evs : List ViewEvent) (st : ServerState),
      st.analytics.TotalViews ≤ (runEvents net evs st).analytics.TotalViews) :=
  ⟨fun net evs => runEvents_balanced net evs initialServerState ⟨rfl, rfl, rfl⟩,
   fun net evs st => runEvents_total_le net evs st⟩

end GOMD
